import Mathlib

/-!
# Verification of the jn_cuclark MPI cluster coordinator

Shallow embedding of the two coordinator variants of the repository:

* `ArdaMpi`    — `src/arda_mpi.cpp` (SSH/preflight variant: `check_node`,
  `run_preflight_checks`, `run_master`, retry configuration options);
* `AppArdaMpi` — `src/app/arda_mpi.cpp` (MPI broadcast variant:
  `serialize_config` / `deserialize_config`, `run_classification_local`,
  `merge_abundance_files`, `generate_aggregate_report`, `generate_hostfile`).

C++ `std::string` values are modelled as `List Char` (`Str`); external
commands (`system`, `popen`, ssh) are modelled by explicit environments
that supply their exit statuses and outputs; `double` wall-clock times are
modelled as exact rationals `ℚ` (the claims concern which arithmetic
expression is computed, not floating-point rounding); C++ `int` is modelled
as `Int` (no serialized value in the claims approaches the 32-bit bound).
-/

/-- C++ `std::string`, modelled as a list of characters. -/
abbrev Str := List Char

/-- Split a character list at every occurrence of the delimiter `d`.
Always returns at least one (possibly empty) segment, like repeatedly
scanning for `d`. -/
def splitOnChar (d : Char) : Str → List Str
  | [] => [[]]
  | c :: rest =>
    match splitOnChar d rest with
    | [] => [[]]
    | t :: ts => if c = d then [] :: t :: ts else (c :: t) :: ts

/-- The token sequence produced by repeated C++ `std::getline(stream, tok, d)`:
all delimiter-separated segments, except that a final empty segment (arising
from a trailing delimiter or an empty input) is not produced, because the
final `getline` hits end-of-stream without reading anything and fails. -/
def cppTokens (d : Char) (s : Str) : List Str :=
  let p := splitOnChar d s
  if p.getLast? = some [] then p.dropLast else p

/-- The line sequence an `istringstream` yields under repeated
`std::getline(stream, line)` — `cppTokens` with the newline delimiter. -/
def cppLines (s : Str) : List Str := cppTokens '\n' s

/-- One `std::getline` step on an already-split line list: a failed read
(end of stream) leaves the target string empty, which is how the C++ code
observes truncated input. -/
def getlineL : List Str → Str × List Str
  | [] => ([], [])
  | l :: rest => (l, rest)

/-- `std::string::find(c)`: index of the first occurrence of `c`, if any. -/
def findChar (c : Char) : Str → Option Nat
  | [] => none
  | a :: rest => if a = c then some 0 else (findChar c rest).map (· + 1)

/-- `std::string::find_last_of(c)`: index of the last occurrence of `c`. -/
def findLastChar (c : Char) (s : Str) : Option Nat :=
  (findChar c s.reverse).map (fun i => s.length - 1 - i)

/-- The whitespace set `" \t\r\n"` used by the repository's `trim`. -/
def isTrimWS (c : Char) : Bool := c = ' ' || c = '\t' || c = '\r' || c = '\n'

/-- `trim` from both coordinator variants: strip the characters of
`" \t\r\n"` from both ends (`find_first_not_of` / `find_last_not_of`). -/
def trim (s : Str) : Str :=
  ((s.dropWhile isTrimWS).reverse.dropWhile isTrimWS).reverse

/-- The C locale `isspace` set used by `std::stoi`. -/
def isSpaceStoi (c : Char) : Bool :=
  c = ' ' || c = '\t' || c = '\n' || c = '\x0b' || c = '\x0c' || c = '\r'

/-- Decimal digit test (`'0'` to `'9'`). -/
def isDig (c : Char) : Bool := decide (48 ≤ c.toNat) && decide (c.toNat ≤ 57)

/-- Accumulate the decimal value of a leading run of digits, stopping at the
first non-digit, exactly as `std::stoi` consumes its input. -/
def digitsAcc : Nat → Str → Nat
  | acc, [] => acc
  | acc, c :: rest => if isDig c then digitsAcc (acc * 10 + (c.toNat - 48)) rest else acc

/-- `std::stoi`: skip `isspace` whitespace, accept an optional sign, then
require at least one digit and read the longest digit run.  `none` models the
`std::invalid_argument` exception (no digits); overflow is not modelled. -/
def stoiM (s : Str) : Option Int :=
  match s.dropWhile isSpaceStoi with
  | [] => none
  | c :: rest =>
    if c = '-' then
      match rest with
      | c2 :: _ => if isDig c2 then some (-(digitsAcc 0 rest : Int)) else none
      | [] => none
    else if c = '+' then
      match rest with
      | c2 :: _ => if isDig c2 then some ((digitsAcc 0 rest : Int)) else none
      | [] => none
    else if isDig c then some ((digitsAcc 0 (c :: rest) : Int)) else none

/-- The character of a decimal digit (total: values above 9 clamp to `'9'`,
which never occurs on the arguments we use). -/
def digitChar (n : Nat) : Char :=
  match n with
  | 0 => '0' | 1 => '1' | 2 => '2' | 3 => '3' | 4 => '4'
  | 5 => '5' | 6 => '6' | 7 => '7' | 8 => '8' | _ => '9'

/-- Little-endian digit characters of `n`, with explicit fuel so that the
definition is structurally recursive and kernel-evaluable. -/
def natDigitsRev : Nat → Nat → List Char
  | 0, _ => []
  | fuel + 1, n =>
    if n < 10 then [digitChar n] else digitChar (n % 10) :: natDigitsRev fuel (n / 10)

/-- Decimal rendering of a natural number (`operator<<` on a non-negative
integer or a `size_t`). -/
def natToStr (n : Nat) : Str := (natDigitsRev (n + 1) n).reverse

/-- Decimal rendering of a C++ `int` by `operator<<` / `std::to_string`. -/
def intToStr : Int → Str
  | Int.ofNat n => natToStr n
  | Int.negSucc n => '-' :: natToStr (n + 1)

/-- `std::string::operator<` — lexicographic comparison by character code
(node hostnames and paths in this repository are ASCII). -/
def strLt : Str → Str → Bool
  | [], [] => false
  | [], _ :: _ => true
  | _ :: _, [] => false
  | a :: as, b :: bs =>
    if a.toNat < b.toNat then true
    else if b.toNat < a.toNat then false
    else strLt as bs

/-- `std::map<string, vector<string>>` insert-or-assign (`operator[]` plus
assignment), on the sorted association list that models the map. -/
def mapInsert (k : Str) (v : List Str) : List (Str × List Str) → List (Str × List Str)
  | [] => [(k, v)]
  | (k0, v0) :: rest =>
    if strLt k k0 then (k, v) :: (k0, v0) :: rest
    else if strLt k0 k then (k0, v0) :: mapInsert k v rest
    else (k0, v) :: rest

/-- `map.find(k)` on the association list modelling the reads map. -/
def lookupReads (m : List (Str × List Str)) (k : Str) : Option (List Str) :=
  (m.find? (fun kv => decide (kv.1 = k))).map (·.2)

/-- Join strings with a single-character separator, the way the
serialization loops emit lists (`if (i > 0) oss << sep;`). -/
def joinSep (d : Char) : List Str → Str
  | [] => []
  | [f] => f
  | f :: rest => f ++ d :: joinSep d rest

/-! ## `src/app/arda_mpi.cpp` — the MPI broadcast coordinator -/

namespace AppArdaMpi

/-- Log levels (`enum LogLevel`). -/
inductive LogLevel where
  | debug | info | warn | err
deriving DecidableEq

/-- `struct ClusterConfig` of `src/app/arda_mpi.cpp` (lines 50-85), with the
default member initializers of the C++ struct. -/
structure ClusterConfig where
  master : Str := []
  workers : List Str := []
  cuclark_dir : Str := []
  database : Str := []
  results_dir : Str := []
  reads : List (Str × List Str) := []   -- std::map, sorted by key
  kmer_size : Int := 31
  batch_size : Int := 32
  min_freq_target : Int := -1
  num_threads : Int := -1
  num_devices : Int := -1
  gap_iteration : Int := -1
  sampling_factor : Str := []
  tsk : Bool := false
  gzipped : Bool := false
  verbose : Bool := false
  extended : Bool := false
  master_processes_reads : Bool := true
  keep_local_results : Bool := true
  log_level : LogLevel := LogLevel.info
  log_file : Str := "cluster_run.log".toList
  show_progress : Bool := true
deriving DecidableEq

/-- The default-constructed `ClusterConfig` a worker process holds before
`deserialize_config` runs (every field at its member initializer). -/
def defaultConfig : ClusterConfig := {}

/-- `struct NodeResult` of `src/app/arda_mpi.cpp` (lines 87-96). -/
structure NodeResult where
  hostname : Str := []
  success : Bool := false
  result_file : Str := []
  abundance_file : Str := []
  reads_processed : Int := 0
  reads_classified : Int := 0
  elapsed_seconds : ℚ := 0
  error_message : Str := []
deriving DecidableEq

/-- `"1"` / `"0"` rendering of a bool field in `serialize_config`. -/
def boolStr (b : Bool) : Str := if b then ['1'] else ['0']

/-- A field line of the serialized config: the field followed by `"\n"`. -/
def fieldLine (s : Str) : Str := s ++ ['\n']

/-- The `"hostname:file1,file2"` record for one reads entry
(`serialize_config`, lines 400-407). -/
def readsEntryLine (kv : Str × List Str) : Str :=
  kv.1 ++ ':' :: joinSep ',' kv.2

/-- `serialize_config` (lines 375-410): newline-terminated scalar fields in a
fixed order, then the size of the reads map, then one `hostname:file,...`
line per reads entry in map (key-sorted) order.  The fields `master`,
`workers` and the logging settings are not written. -/
def serialize_config (c : ClusterConfig) : Str :=
  fieldLine c.cuclark_dir ++ fieldLine c.database ++ fieldLine c.results_dir ++
  fieldLine (intToStr c.kmer_size) ++ fieldLine (intToStr c.batch_size) ++
  fieldLine (boolStr c.master_processes_reads) ++ fieldLine (boolStr c.keep_local_results) ++
  fieldLine (intToStr c.min_freq_target) ++ fieldLine (intToStr c.num_threads) ++
  fieldLine (intToStr c.num_devices) ++ fieldLine (intToStr c.gap_iteration) ++
  fieldLine c.sampling_factor ++
  fieldLine (boolStr c.tsk) ++ fieldLine (boolStr c.extended) ++
  fieldLine (boolStr c.gzipped) ++ fieldLine (boolStr c.verbose) ++
  fieldLine (natToStr c.reads.length) ++
  (c.reads.map (fun kv => fieldLine (readsEntryLine kv))).flatten

/-- The comma-separated file list of one deserialized reads entry
(lines 445-450): `getline(fss, file, ',')` tokens with empty tokens dropped. -/
def parseFiles (s : Str) : List Str :=
  (cppTokens ',' s).filter (fun f => !f.isEmpty)

/-- The reads-map reconstruction loop of `deserialize_config`
(lines 438-453): read `n` lines, split each at its first `':'` into hostname
and file list, and insert into the map; a line with no `':'` is skipped. -/
def parseReads : Nat → List Str → List (Str × List Str) → List (Str × List Str)
  | 0, _, m => m
  | n + 1, ls, m =>
    let p := getlineL ls
    match findChar ':' p.1 with
    | some i => parseReads n p.2 (mapInsert (p.1.take i) (parseFiles (p.1.drop (i + 1))) m)
    | none => parseReads n p.2 m

/-- `deserialize_config` (lines 412-454), applied to the received payload
`data` and the receiving process's current config `g` (the C++ code mutates
the global `g_config`).  `none` models the uncaught `std::stoi` exception on
a malformed numeric field, which kills the worker. -/
def deserialize_config (data : Str) (g : ClusterConfig) : Option ClusterConfig :=
  let s0 := cppLines data
  let p0 := getlineL s0        -- cuclark_dir
  let p1 := getlineL p0.2      -- database
  let p2 := getlineL p1.2      -- results_dir
  let p3 := getlineL p2.2      -- kmer_size
  let p4 := getlineL p3.2      -- batch_size
  let p5 := getlineL p4.2      -- master_processes_reads
  let p6 := getlineL p5.2      -- keep_local_results
  let p7 := getlineL p6.2      -- min_freq_target
  let p8 := getlineL p7.2      -- num_threads
  let p9 := getlineL p8.2      -- num_devices
  let p10 := getlineL p9.2     -- gap_iteration
  let p11 := getlineL p10.2    -- sampling_factor
  let p12 := getlineL p11.2    -- tsk
  let p13 := getlineL p12.2    -- extended
  let p14 := getlineL p13.2    -- gzipped
  let p15 := getlineL p14.2    -- verbose
  let p16 := getlineL p15.2    -- number of reads entries
  do
    let kmer ← stoiM p3.1
    let batch ← stoiM p4.1
    let mft ← stoiM p7.1
    let nth ← stoiM p8.1
    let ndev ← stoiM p9.1
    let gap ← stoiM p10.1
    let nr ← stoiM p16.1
    pure { g with
      cuclark_dir := p0.1, database := p1.1, results_dir := p2.1,
      kmer_size := kmer, batch_size := batch,
      master_processes_reads := decide (p5.1 = ['1']),
      keep_local_results := decide (p6.1 = ['1']),
      min_freq_target := mft, num_threads := nth, num_devices := ndev,
      gap_iteration := gap, sampling_factor := p11.1,
      tsk := decide (p12.1 = ['1']), extended := decide (p13.1 = ['1']),
      gzipped := decide (p14.1 = ['1']), verbose := decide (p15.1 = ['1']),
      reads := parseReads nr.toNat p16.2 g.reads }

end AppArdaMpi

namespace AppArdaMpi

/-- Comma-splitting with `trim` of `load_config`'s `split_csv`
(lines 205-214): `getline(…, ',')` tokens, trimmed, empties dropped. -/
def split_csv (s : Str) : List Str :=
  ((cppTokens ',' s).map trim).filter (fun t => !t.isEmpty)

/-- The `[reads]`-section loop of `load_config` (lines 331-339): for each
`hostname = value` pair of the section (the `IniParser` section map iterates
in key order), split the value as CSV and store it under the hostname when
the file list is non-empty.  No arity check of any kind is performed. -/
def loadReads (sec : List (Str × Str)) : List (Str × List Str) :=
  sec.foldl
    (fun m kv =>
      let files := split_csv kv.2
      if files.isEmpty then m else mapInsert kv.1 files m)
    []

/-- `is_paired` of `run_classification_local` (line 531): an entry is
paired-end exactly when it has exactly two files; every other count is
treated as single-end. -/
def is_paired (node_reads : List Str) : Bool := decide (node_reads.length = 2)

/-- Basename of a path (`find_last_of('/')` + `substr`, lines 535-536). -/
def basenameOf (p : Str) : Str :=
  match findLastChar '/' p with
  | some i => p.drop (i + 1)
  | none => p

/-- Strip the last extension (`find_last_of('.')` + `substr`, lines 537-538). -/
def stripExt (b : Str) : Str :=
  match findLastChar '.' b with
  | some i => b.take i
  | none => b

/-- The per-node result path prefix (lines 540-541):
`cuclark_dir/results_dir/hostname_<basename of first read without ext>`. -/
def resultPathOf (c : ClusterConfig) (host : Str) (node_reads : List Str) : Str :=
  c.cuclark_dir ++ '/' :: c.results_dir ++ '/' :: host ++ '_' ::
    stripExt (basenameOf node_reads.headI)

/-- Environment for `run_classification_local`: outcomes of the external
processes the function spawns (`mkdir -p`, `stat` on each read file, the
classify command, the abundance command) and the wall-clock time `chrono`
reports.  Exit codes are the `WEXITSTATUS` values of normally terminated
children, so the raw `system` status is nonzero exactly when the exit code
is. -/
structure LocalEnv where
  mkdirOk : Bool := true
  fileExists : Str → Bool := fun _ => true
  classifyExit : Nat := 0
  abundanceExit : Nat := 0
  elapsed : ℚ := 0

/-- The observable outcome of one `run_classification_local` call: the
`NodeResult` it returns plus which external commands were invoked. -/
structure LocalRun where
  result : NodeResult
  classifyInvoked : Bool
  abundanceInvoked : Bool
deriving DecidableEq

/-- `run_classification_local` of `src/app/arda_mpi.cpp` (lines 508-632):
look up this node's reads (failure: immediate error result); verify each
read file exists (first missing file: immediate error result); run the
classify command (non-zero exit: immediate error result naming the exit
code, abundance never attempted); on classify success run the abundance
command, whose failure only leaves `abundance_file` empty; finally record
the elapsed time and set `success = true`. -/
def run_classification_local (c : ClusterConfig) (host : Str) (env : LocalEnv) : LocalRun :=
  let r0 : NodeResult := { hostname := host }
  match lookupReads c.reads host with
  | none =>
    ⟨{ r0 with error_message := "No reads configured for this node".toList }, false, false⟩
  | some node_reads =>
    if node_reads.isEmpty then
      ⟨{ r0 with error_message := "No reads configured for this node".toList }, false, false⟩
    else
      let result_path := resultPathOf c host node_reads
      match node_reads.find? (fun f => !env.fileExists f) with
      | some f =>
        ⟨{ r0 with error_message := "Read file not found: ".toList ++ f }, false, false⟩
      | none =>
        if env.classifyExit ≠ 0 then
          ⟨{ r0 with error_message :=
              "Classification failed with exit code ".toList ++ natToStr env.classifyExit },
            true, false⟩
        else
          let r1 := { r0 with result_file := result_path ++ ".csv".toList }
          let r2 :=
            if env.abundanceExit = 0 then
              { r1 with abundance_file := result_path ++ "_abundance.txt".toList }
            else r1
          ⟨{ r2 with elapsed_seconds := env.elapsed, success := true }, true, true⟩

/-- `merge_abundance_files` (lines 638-674): collect the abundance files of
successful results in order; with fewer than two the merge is skipped (an
informational log message, `none`); otherwise the external merge command is
invoked on exactly those files with the fixed output path (`some`). -/
def merge_abundance_files (c : ClusterConfig) (results : List NodeResult) :
    Option (List Str × Str) :=
  let abundance_files := results.foldl
    (fun acc r => if r.success && !r.abundance_file.isEmpty then acc ++ [r.abundance_file] else acc)
    []
  if abundance_files.length < 2 then none
  else some (abundance_files, c.results_dir ++ "/cluster_abundance_merged.txt".toList)

/-- The merged-abundance path `run_mpi_mode` passes to the report generator
(line 1015) — unconditionally, whether or not a merge happened. -/
def clusterMergedPath (c : ClusterConfig) : Str :=
  c.results_dir ++ "/cluster_abundance_merged.txt".toList

/-- Whether `generate_aggregate_report` emits the `MERGED ABUNDANCE` section
(lines 730-735): exactly when its `merged_abundance_path` argument is
non-empty. -/
def reportHasMergedSection (merged_abundance_path : Str) : Bool :=
  !merged_abundance_path.isEmpty

/-- The summary accumulator loop of `generate_aggregate_report`
(lines 709-728): over the results in order, a successful node adds one to
the success count, adds its elapsed time to `total_time` and maxes it into
`max_time`; a failed node contributes nothing. -/
def summaryAccum (results : List NodeResult) : Nat × ℚ × ℚ :=
  results.foldl
    (fun acc r =>
      if r.success then (acc.1 + 1, acc.2.1 + r.elapsed_seconds, max acc.2.2 r.elapsed_seconds)
      else acc)
    (0, 0, 0)

/-- The speedup figure printed in the report's summary block (line 742):
`max_time > 0 ? total_time / max_time : 0`. -/
def reportSpeedup (results : List NodeResult) : ℚ :=
  let acc := summaryAccum results
  if acc.2.2 > 0 then acc.2.1 / acc.2.2 else 0

/-- Specification-side total: the sum of the elapsed times entering the
summary (those of successful nodes). -/
def totalElapsedSpec (results : List NodeResult) : ℚ :=
  ((results.filter (·.success)).map (·.elapsed_seconds)).sum

/-- Specification-side maximum of the elapsed times entering the summary
(zero when no time enters it). -/
def maxElapsedSpec (results : List NodeResult) : ℚ :=
  ((results.filter (·.success)).map (·.elapsed_seconds)).foldr max 0

/-- `generate_hostfile` (lines 754-777): the master node first, always, then
every worker that has a reads entry, in `workers` order, each rendered as a
`"<hostname> slots=1"` line. -/
def generate_hostfile (c : ClusterConfig) : List Str :=
  let nodes := c.master :: c.workers.filter (fun w => (lookupReads c.reads w).isSome)
  nodes.map (fun n => n ++ " slots=1".toList)

/-- The `active_workers` list built by `launch_mpi` (lines 800-806): the
workers that have a reads entry, in `workers` order. -/
def active_workers (c : ClusterConfig) : List Str :=
  c.workers.filter (fun w => (lookupReads c.reads w).isSome)

/-- Environment for `launch_mpi`'s pre-launch probes: whether the
`ssh … hostname` connectivity test (lines 829-851) and the remote
`test -x` binary check (lines 853-865) succeed on a given worker. -/
structure LaunchEnv where
  sshOk : Str → Bool := fun _ => true
  binOk : Str → Bool := fun _ => true

/-- The pre-launch gate of `launch_mpi` (lines 808-865): whether execution
reaches the `mpirun` invocation.  It requires some node to have work
(lines 808-815), and then `return 1` — aborting the whole run — as soon as
any single active worker fails the SSH connectivity check (lines 829-851)
or the binary check (lines 853-865); there is no exclude-and-continue at
this stage. -/
def launch_preflight (c : ClusterConfig) (env : LaunchEnv) : Bool :=
  let master_has_work := c.master_processes_reads && (lookupReads c.reads c.master).isSome
  if (active_workers c).isEmpty && !master_has_work then false
  else if !((active_workers c).all env.sshOk) then false
  else if !((active_workers c).all env.binOk) then false
  else true

end AppArdaMpi

/-! ## `src/arda_mpi.cpp` — the SSH/preflight coordinator variant -/

namespace ArdaMpi

/-- Log levels (`enum LogLevel`). -/
inductive LogLevel where
  | debug | info | warn | err
deriving DecidableEq

/-- `struct ClusterConfig` of `src/arda_mpi.cpp` (lines 55-84), including
the retry options `retry_failed_nodes` and `max_retries` (lines 74-75),
with the C++ default member initializers. -/
structure ClusterConfig where
  master : Str := []
  workers : List Str := []
  cuclark_dir : Str := []
  database : Str := []
  results_dir : Str := []
  reads : List (Str × List Str) := []
  kmer_size : Int := 31
  batch_size : Int := 50000
  master_processes_reads : Bool := true
  retry_failed_nodes : Bool := true
  max_retries : Int := 3
  collect_results_to_master : Bool := true
  keep_local_results : Bool := true
  ssh_timeout : Int := 30
  log_level : LogLevel := LogLevel.info
  log_file : Str := "cluster_run.log".toList
  show_progress : Bool := true
deriving DecidableEq

/-- `struct NodeStatus` (lines 86-94). -/
structure NodeStatus where
  hostname : Str := []
  reachable : Bool := false
  database_ok : Bool := false
  reads_ok : Bool := false
  binary_ok : Bool := false
  disk_ok : Bool := false
  error_message : Str := []
deriving DecidableEq

/-- `struct NodeResult` (lines 96-105). -/
structure NodeResult where
  hostname : Str := []
  success : Bool := false
  result_file : Str := []
  abundance_file : Str := []
  reads_processed : Int := 0
  reads_classified : Int := 0
  elapsed_seconds : ℚ := 0
  error_message : Str := []
deriving DecidableEq

/-- Basename of a path (`find_last_of('/')` + `substr`, lines 568-569). -/
def basenameOf (p : Str) : Str :=
  match findLastChar '/' p with
  | some i => p.drop (i + 1)
  | none => p

/-- Strip the last extension (`find_last_of('.')` + `substr`, lines 570-571). -/
def stripExt (b : Str) : Str :=
  match findLastChar '.' b with
  | some i => b.take i
  | none => b

/-- The per-file result path prefix used by both the local and the remote
classification loops (lines 573-574 and 787-788). -/
def resultPathFor (c : ClusterConfig) (host : Str) (read_file : Str) : Str :=
  c.cuclark_dir ++ '/' :: c.results_dir ++ '/' :: host ++ '_' ::
    stripExt (basenameOf read_file)

/-- Environment for `check_node`: the outcome of each remote probe.  Each
probe outcome is `rc == 0 && output contains the marker`, collapsed into one
boolean per probe; `echoOutput` is the captured output of the liveness probe
(it appears in the error message); `diskFreeGb` is the result of
`stoi(trim(output))` for the disk probe (`none` models the caught
exception). -/
structure ProbeEnv where
  echoOk : Bool := true
  echoOutput : Str := []
  dbOk : Bool := true
  readOk : Str → Bool := fun _ => true
  binOk : Bool := true
  diskRcZero : Bool := true
  diskFreeGb : Option Int := some 100

/-- `check_node` (lines 422-505): probes in the fixed order liveness →
database → read files → binary → disk, returning at the first failing
blocking probe (all later flags keep their `false` defaults); the disk probe
only sets an error message on low space and `disk_ok` is set `true`
unconditionally at the end. -/
def check_node (c : ClusterConfig) (hostname : Str) (env : ProbeEnv) : NodeStatus :=
  let s0 : NodeStatus := { hostname := hostname }
  if !env.echoOk then
    { s0 with error_message := "Node not reachable: ".toList ++ env.echoOutput }
  else
    let s1 := { s0 with reachable := true }
    if !env.dbOk then
      { s1 with error_message := "Database not found or incomplete at ".toList ++ c.database }
    else
      let s2 := { s1 with database_ok := true }
      match lookupReads c.reads hostname with
      | none => { s2 with error_message := "No reads configured for this node".toList }
      | some files =>
        if files.isEmpty then
          { s2 with error_message := "No reads configured for this node".toList }
        else
          match files.find? (fun f => !env.readOk f) with
          | some f => { s2 with error_message := "Read file not found: ".toList ++ f }
          | none =>
            let s3 := { s2 with reads_ok := true }
            if !env.binOk then
              { s3 with error_message :=
                  "cuCLARK-l binary not found or not executable at ".toList ++
                    c.cuclark_dir ++ "/bin/cuCLARK-l".toList }
            else
              let s4 := { s3 with binary_ok := true }
              let s5 :=
                if env.diskRcZero then
                  match env.diskFreeGb with
                  | some free =>
                    if free < 1 then
                      { s4 with error_message := "Insufficient disk space (< 1GB free)".toList }
                    else s4
                  | none => s4
                else s4
              { s5 with disk_ok := true }

/-- The readiness predicate used at lines 523-524, 533, 625 and 741:
`reachable && database_ok && reads_ok && binary_ok` (disk is not consulted). -/
def isReady (ns : NodeStatus) : Bool :=
  ns.reachable && ns.database_ok && ns.reads_ok && ns.binary_ok

/-- Whether the read-file probe of `check_node` passes for this node: a
non-empty configured list all of whose files exist remotely. -/
def readsPass (c : ClusterConfig) (hostname : Str) (env : ProbeEnv) : Bool :=
  match lookupReads c.reads hostname with
  | none => false
  | some files => !files.isEmpty && files.all env.readOk

/-- `run_preflight_checks` (lines 507-541): check the master (when it
processes reads) followed by every worker, collect the statuses, and return
them together with the continue decision `all_ok || ready_count > 0`. -/
def run_preflight_checks (c : ClusterConfig) (env : Str → ProbeEnv) :
    List NodeStatus × Bool :=
  let all_nodes := if c.master_processes_reads then c.master :: c.workers else c.workers
  let statuses := all_nodes.map (fun n => check_node c n (env n))
  let all_ok := statuses.all isReady
  let ready_count := (statuses.filter isReady).length
  (statuses, all_ok || decide (0 < ready_count))

/-- The statuses produced by the preflight stage. -/
def preflightStatuses (c : ClusterConfig) (env : Str → ProbeEnv) : List NodeStatus :=
  (run_preflight_checks c env).1

/-- The pre-flight summary lines (lines 530-537): each node recorded as
`READY` or `FAILED`. -/
def preflightSummary (c : ClusterConfig) (env : Str → ProbeEnv) : List (Str × Str) :=
  (preflightStatuses c env).map
    (fun ns => (ns.hostname, if isReady ns then "READY".toList else "FAILED".toList))

/-- The dispatch list of `run_master` (lines 739-744): exactly the ready
statuses, in preflight order. -/
def ready_nodes (c : ClusterConfig) (env : Str → ProbeEnv) : List NodeStatus :=
  (preflightStatuses c env).filter isReady

/-- Whether `run_master` (lines 726-751) reaches the dispatch phase: the
preflight continue decision must hold and the ready list must be non-empty
(otherwise it returns 1). -/
def masterProceeds (c : ClusterConfig) (env : Str → ProbeEnv) : Bool :=
  (run_preflight_checks c env).2 && !(ready_nodes c env).isEmpty

/-- Environment for the local classification loop: the exit status of the
`i`-th classify invocation and of the `i`-th abundance invocation (statuses
of normally terminated children, nonzero iff the exit code is), and the
wall-clock duration `chrono` reports. -/
structure RetryEnv where
  classifyRc : Nat → Nat := fun _ => 0
  abundanceRc : Nat → Nat := fun _ => 0
  elapsed : ℚ := 0

/-- A `run_classification_local` outcome together with the number of times
the external classify command was invoked during the call. -/
structure LocalRunCount where
  result : NodeResult
  classifyCount : Nat
deriving DecidableEq

/-- The per-read-file loop of `run_classification_local` (lines 566-606):
each iteration invokes classify once (counted); a non-zero status records
the exit code in the error message and returns at once; otherwise the result
file is recorded and abundance estimation runs, setting `abundance_file`
only on status 0.  After the last file the elapsed time is recorded and
`success` is set. -/
def classifyLoop (c : ClusterConfig) (host : Str) (env : RetryEnv) :
    List Str → Nat → NodeResult → NodeResult × Nat
  | [], k, r => ({ r with elapsed_seconds := env.elapsed, success := true }, k)
  | read_file :: rest, k, r =>
    let rc := env.classifyRc k
    if rc ≠ 0 then
      ({ r with error_message :=
          "Classification failed with exit code ".toList ++ natToStr rc }, k + 1)
    else
      let result_path := resultPathFor c host read_file
      let r1 := { r with result_file := result_path ++ ".csv".toList }
      let r2 :=
        if env.abundanceRc k = 0 then
          { r1 with abundance_file := result_path ++ "_abundance.txt".toList }
        else r1
      classifyLoop c host env rest (k + 1) r2

/-- `run_classification_local` of `src/arda_mpi.cpp` (lines 547-616),
instrumented with the classify invocation count.  It is called exactly once
per node and per run — by `run_worker` (line 876) and by `run_master`'s
parallel branch (line 839); no caller re-invokes it on failure, and the
`retry_failed_nodes` / `max_retries` options loaded at lines 399-400 are
never read anywhere else in the program. -/
def run_classification_local (c : ClusterConfig) (host : Str) (env : RetryEnv) :
    LocalRunCount :=
  let r0 : NodeResult := { hostname := host }
  match lookupReads c.reads host with
  | none => ⟨{ r0 with error_message := "No reads configured for this node".toList }, 0⟩
  | some files =>
    if files.isEmpty then
      ⟨{ r0 with error_message := "No reads configured for this node".toList }, 0⟩
    else
      let p := classifyLoop c host env files 0 r0
      ⟨p.1, p.2⟩

/-- Environment for the sequential (single-MPI-process) per-node loop of
`run_master`: `(rc, output)` of the `i`-th remote classify command; the
remote abundance command's status is ignored by the code. -/
structure SeqEnv where
  classifySsh : Nat → Nat × Str := fun _ => (0, [])
  elapsed : ℚ := 0

/-- The per-read-file loop of `run_master`'s sequential mode
(lines 780-818): a failing remote classify only overwrites the error
message and the loop continues with the next file; a succeeding one sets
`result_file`, `success = true` and `abundance_file` (the abundance
command's status is ignored).  Nothing resets `success` or clears the error
message. -/
def seqNodeLoop (c : ClusterConfig) (host : Str) (env : SeqEnv) :
    List Str → Nat → NodeResult → NodeResult
  | [], _, r => r
  | read_file :: rest, k, r =>
    let result_path := resultPathFor c host read_file
    let r1 :=
      if (env.classifySsh k).1 ≠ 0 then
        { r with error_message := "Classification failed: ".toList ++ (env.classifySsh k).2 }
      else
        { r with result_file := result_path ++ ".csv".toList, success := true,
                 abundance_file := result_path ++ "_abundance.txt".toList }
    seqNodeLoop c host env rest (k + 1) r1

/-- One iteration of `run_master`'s sequential SSH coordination mode
(lines 764-829): the `NodeResult` recorded for one ready node. -/
def runMasterSeqNode (c : ClusterConfig) (host : Str) (env : SeqEnv) : NodeResult :=
  let r0 : NodeResult := { hostname := host }
  match lookupReads c.reads host with
  | none => { r0 with error_message := "No reads configured".toList }
  | some files =>
    if files.isEmpty then { r0 with error_message := "No reads configured".toList }
    else
      let r := seqNodeLoop c host env files 0 r0
      { r with elapsed_seconds := env.elapsed }

end ArdaMpi

/-- Side conditions under which one reads entry survives the wire format of
`serialize_config`: the hostname contains neither the line delimiter nor the
key separator `':'`, and every file path is non-empty and contains neither
the line delimiter nor the list delimiter `','`.  (The wire format has no
escaping: a path violating these is silently resplit, not rejected.) -/
def AppArdaMpi.EntryOk (kv : Str × List Str) : Prop :=
  ('\n') ∉ kv.1 ∧ (':') ∉ kv.1 ∧ ∀ f ∈ kv.2, f ≠ [] ∧ ('\n') ∉ f ∧ (',') ∉ f

/-- Side conditions under which the serialized configuration parses back:
no string field contains a newline, every reads entry is wire-safe, and the
reads association list satisfies the `std::map` representation invariant
(keys strictly increasing). -/
def AppArdaMpi.SerializableConfig (c : AppArdaMpi.ClusterConfig) : Prop :=
  ('\n') ∉ c.cuclark_dir ∧ ('\n') ∉ c.database ∧ ('\n') ∉ c.results_dir ∧
  ('\n') ∉ c.sampling_factor ∧ (∀ kv ∈ c.reads, AppArdaMpi.EntryOk kv) ∧
  List.Pairwise (fun a b => strLt a.1 b.1 = true) c.reads

/-! ## General lemmas about the string layer -/

theorem splitOnChar_cons_eq {d : Char} {rest t : Str} {ts : List Str} (c : Char)
    (h : splitOnChar d rest = t :: ts) :
    splitOnChar d (c :: rest) = if c = d then [] :: t :: ts else (c :: t) :: ts := by
  unfold splitOnChar
  rw [h]

theorem splitOnChar_ne_nil (d : Char) (s : Str) : splitOnChar d s ≠ [] := by
  induction s with
  | nil => simp [splitOnChar]
  | cons c rest ih =>
    obtain ⟨t, ts, h⟩ : ∃ t ts, splitOnChar d rest = t :: ts := by
      cases hh : splitOnChar d rest with
      | nil => exact absurd hh ih
      | cons a b => exact ⟨a, b, rfl⟩
    rw [splitOnChar_cons_eq c h]
    split <;> simp

theorem splitOnChar_exists_cons (d : Char) (s : Str) :
    ∃ t ts, splitOnChar d s = t :: ts := by
  cases hh : splitOnChar d s with
  | nil => exact absurd hh (splitOnChar_ne_nil d s)
  | cons a b => exact ⟨a, b, rfl⟩

theorem splitOnChar_not_mem {d : Char} {s : Str} (h : d ∉ s) :
    splitOnChar d s = [s] := by
  induction s with
  | nil => rfl
  | cons c rest ih =>
    have hc : ¬ c = d := fun hcd => h (by simp [hcd])
    have hrest : d ∉ rest := fun hm => h (List.mem_cons_of_mem c hm)
    rw [splitOnChar_cons_eq c (ih hrest), if_neg hc]

theorem splitOnChar_append {d : Char} {a : Str} (s : Str) (h : d ∉ a) :
    splitOnChar d (a ++ d :: s) = a :: splitOnChar d s := by
  induction a with
  | nil =>
    obtain ⟨t, ts, hts⟩ := splitOnChar_exists_cons d s
    rw [List.nil_append, splitOnChar_cons_eq d hts, if_pos rfl, hts]
  | cons c restA ih =>
    have hc : ¬ c = d := fun hcd => h (by simp [hcd])
    have hrest : d ∉ restA := fun hm => h (List.mem_cons_of_mem c hm)
    rw [List.cons_append, splitOnChar_cons_eq c (ih hrest), if_neg hc]

theorem mem_of_getLast?_eq {α} : ∀ {l : List α} {a : α}, l.getLast? = some a → a ∈ l
  | [], _, h => by simp [List.getLast?] at h
  | [b], a, h => by
    simp [List.getLast?] at h
    simp [h]
  | b :: c :: l, a, h => by
    have : (c :: l).getLast? = some a := by
      simpa [List.getLast?_cons_cons] using h
    exact List.mem_cons_of_mem b (mem_of_getLast?_eq this)

theorem cppTokens_nil (d : Char) : cppTokens d [] = [] := rfl

theorem cppTokens_cons {d : Char} {a : Str} (s : Str) (h : d ∉ a) :
    cppTokens d (a ++ d :: s) = a :: cppTokens d s := by
  simp only [cppTokens]
  rw [splitOnChar_append s h]
  obtain ⟨t, ts, hts⟩ := splitOnChar_exists_cons d s
  rw [hts]
  have h1 : (a :: t :: ts).getLast? = (t :: ts).getLast? := List.getLast?_cons_cons
  have h2 : (a :: t :: ts).dropLast = a :: (t :: ts).dropLast := by
    simp [List.dropLast]
  rw [h1, h2]
  split <;> rfl

theorem cppTokens_single {d : Char} {s : Str} (h : d ∉ s) (hne : s ≠ []) :
    cppTokens d s = [s] := by
  unfold cppTokens
  rw [splitOnChar_not_mem h]
  simp [hne]

theorem splitOnChar_joinSep {d : Char} {fs : List Str} (hne : fs ≠ [])
    (h : ∀ f ∈ fs, d ∉ f) : splitOnChar d (joinSep d fs) = fs := by
  induction fs with
  | nil => exact absurd rfl hne
  | cons f rest ih =>
    cases rest with
    | nil => exact splitOnChar_not_mem (h f (by simp))
    | cons g rest2 =>
      show splitOnChar d (f ++ d :: joinSep d (g :: rest2)) = f :: g :: rest2
      rw [splitOnChar_append _ (h f (by simp))]
      rw [ih (by simp) (fun x hx => h x (List.mem_cons_of_mem f hx))]

theorem cppTokens_joinSep {d : Char} {fs : List Str}
    (h : ∀ f ∈ fs, d ∉ f) (hne : ∀ f ∈ fs, f ≠ []) :
    cppTokens d (joinSep d fs) = fs := by
  cases fs with
  | nil => exact cppTokens_nil d
  | cons f rest =>
    unfold cppTokens
    rw [splitOnChar_joinSep (by simp) h]
    have hlast : (f :: rest).getLast? ≠ some ([] : Str) := by
      intro hl
      exact hne [] (mem_of_getLast?_eq hl) rfl
    rw [if_neg hlast]

theorem findChar_append_cons {c : Char} {k : Str} (r : Str) (h : c ∉ k) :
    findChar c (k ++ c :: r) = some k.length := by
  induction k with
  | nil => simp [findChar]
  | cons a rest ih =>
    have ha : ¬ a = c := fun h' => h (by simp [h'])
    have hrest : c ∉ rest := fun hm => h (List.mem_cons_of_mem a hm)
    rw [List.cons_append]
    show (if a = c then some 0 else (findChar c (rest ++ c :: r)).map (· + 1)) =
      some (rest.length + 1)
    rw [if_neg ha, ih hrest]
    rfl

theorem take_append_len {α} (k r : List α) : (k ++ r).take k.length = k := by
  induction k with
  | nil => rfl
  | cons a rest ih => simp [ih]

theorem drop_append_len_succ {α} (k : List α) (c : α) (r : List α) :
    (k ++ c :: r).drop (k.length + 1) = r := by
  induction k with
  | nil => rfl
  | cons a rest ih => simp [ih]

theorem isDig_digitChar (n : Nat) : isDig (digitChar n) = true := by
  unfold digitChar
  split <;> decide

theorem digitChar_val {n : Nat} (h : n < 10) : (digitChar n).toNat - 48 = n := by
  interval_cases n <;> decide

theorem natDigitsRev_all_dig :
    ∀ (fuel n : Nat), ∀ c ∈ natDigitsRev fuel n, isDig c = true := by
  intro fuel
  induction fuel with
  | zero => intro n c hc; simp [natDigitsRev] at hc
  | succ fuel ih =>
    intro n c hc
    unfold natDigitsRev at hc
    by_cases h : n < 10
    · rw [if_pos h] at hc
      simp at hc
      rw [hc]
      exact isDig_digitChar n
    · rw [if_neg h] at hc
      rcases List.mem_cons.mp hc with h1 | h2
      · rw [h1]; exact isDig_digitChar _
      · exact ih _ c h2

theorem digitsAcc_append {a : Str} (b : Str) (ha : ∀ c ∈ a, isDig c = true) :
    ∀ acc, digitsAcc acc (a ++ b) = digitsAcc (digitsAcc acc a) b := by
  induction a with
  | nil => intro acc; rfl
  | cons c rest ih =>
    intro acc
    have hc := ha c (by simp)
    have hrest : ∀ x ∈ rest, isDig x = true := fun x hx => ha x (List.mem_cons_of_mem c hx)
    simp only [List.cons_append, digitsAcc, hc, if_true]
    exact ih hrest _

theorem digitsAcc_natDigitsRev :
    ∀ (fuel n : Nat), n < 10 ^ fuel → digitsAcc 0 (natDigitsRev fuel n).reverse = n := by
  intro fuel
  induction fuel with
  | zero =>
    intro n hn
    rw [pow_zero] at hn
    interval_cases n
    rfl
  | succ fuel ih =>
    intro n hn
    by_cases h : n < 10
    · unfold natDigitsRev
      rw [if_pos h]
      simp [digitsAcc, isDig_digitChar, digitChar_val h]
    · unfold natDigitsRev
      rw [if_neg h, List.reverse_cons,
          digitsAcc_append _ (fun c hc => natDigitsRev_all_dig fuel (n / 10) c
            (List.mem_reverse.mp hc)) 0]
      have hdiv : n / 10 < 10 ^ fuel := by
        rw [Nat.div_lt_iff_lt_mul (by norm_num)]
        calc n < 10 ^ (fuel + 1) := hn
          _ = 10 ^ fuel * 10 := by ring
      rw [ih _ hdiv]
      have hm : n % 10 < 10 := Nat.mod_lt _ (by norm_num)
      simp [digitsAcc, isDig_digitChar, digitChar_val hm]
      omega

theorem digitsAcc_natToStr (n : Nat) : digitsAcc 0 (natToStr n) = n := by
  have h1 : n < 10 ^ n := Nat.lt_pow_self (by norm_num) n
  have h2 : (10 : Nat) ^ n ≤ 10 ^ (n + 1) := Nat.pow_le_pow_right (by norm_num) (by omega)
  exact digitsAcc_natDigitsRev (n + 1) n (lt_of_lt_of_le h1 h2)

theorem natToStr_ne_nil (n : Nat) : natToStr n ≠ [] := by
  unfold natToStr natDigitsRev
  split <;> simp

theorem natToStr_all_dig {n : Nat} {c : Char} (hc : c ∈ natToStr n) : isDig c = true :=
  natDigitsRev_all_dig _ _ c (List.mem_reverse.mp hc)

theorem isDig_not_space {c : Char} (h : isDig c = true) : isSpaceStoi c = false := by
  have h1 : 48 ≤ c.toNat := by
    unfold isDig at h
    simp at h
    exact h.1
  unfold isSpaceStoi
  simp only [Bool.or_eq_false_iff, decide_eq_false_iff_not]
  refine ⟨⟨⟨⟨⟨?_, ?_⟩, ?_⟩, ?_⟩, ?_⟩, ?_⟩ <;>
    · intro h'
      subst h'
      exact absurd h1 (by decide)

theorem isDig_ne_of_small {c x : Char} (h : isDig c = true) (hx : x.toNat < 48) :
    c ≠ x := by
  intro h'
  subst h'
  unfold isDig at h
  simp at h
  omega

theorem stoiM_natToStr (n : Nat) : stoiM (natToStr n) = some (n : Int) := by
  obtain ⟨c, rest, hcr⟩ : ∃ c rest, natToStr n = c :: rest := by
    cases h : natToStr n with
    | nil => exact absurd h (natToStr_ne_nil n)
    | cons a b => exact ⟨a, b, rfl⟩
  have hdig : isDig c = true := natToStr_all_dig (by rw [hcr]; simp)
  have hspace : isSpaceStoi c = false := isDig_not_space hdig
  have hminus : ¬ c = '-' := isDig_ne_of_small hdig (by decide)
  have hplus : ¬ c = '+' := isDig_ne_of_small hdig (by decide)
  rw [hcr]
  unfold stoiM
  rw [List.dropWhile_cons, hspace]
  simp only [Bool.false_eq_true, if_false]
  show (if c = '-' then _ else if c = '+' then _ else
    if isDig c then some ((digitsAcc 0 (c :: rest) : Int)) else none) = some (n : Int)
  rw [if_neg hminus, if_neg hplus, hdig, if_pos rfl, ← hcr, digitsAcc_natToStr]

theorem stoiM_intToStr (k : Int) : stoiM (intToStr k) = some k := by
  cases k with
  | ofNat n => exact stoiM_natToStr n
  | negSucc n =>
    show stoiM ('-' :: natToStr (n + 1)) = some (Int.negSucc n)
    obtain ⟨c, rest, hcr⟩ : ∃ c rest, natToStr (n + 1) = c :: rest := by
      cases h : natToStr (n + 1) with
      | nil => exact absurd h (natToStr_ne_nil (n + 1))
      | cons a b => exact ⟨a, b, rfl⟩
    have hdig : isDig c = true := natToStr_all_dig (by rw [hcr]; simp)
    rw [hcr]
    unfold stoiM
    rw [List.dropWhile_cons]
    have hsp : isSpaceStoi '-' = false := by decide
    rw [hsp]
    simp only [Bool.false_eq_true, if_false, reduceCtorEq, if_pos]
    rw [hdig]
    simp only [if_pos rfl]
    rw [← hcr, digitsAcc_natToStr, Int.negSucc_eq]
    push_cast
    ring_nf

theorem not_nl_natToStr (n : Nat) : ('\n') ∉ natToStr n := fun h =>
  absurd (natToStr_all_dig h) (by decide)

theorem not_nl_intToStr (k : Int) : ('\n') ∉ intToStr k := by
  cases k with
  | ofNat n => exact not_nl_natToStr n
  | negSucc n =>
    intro h
    rcases List.mem_cons.mp h with h1 | h2
    · exact absurd h1 (by decide)
    · exact not_nl_natToStr (n + 1) h2

theorem not_nl_boolStr (b : Bool) : ('\n') ∉ AppArdaMpi.boolStr b := by
  cases b <;> decide

theorem not_nl_joinSep {fs : List Str} (h : ∀ f ∈ fs, ('\n') ∉ f) :
    ('\n') ∉ joinSep ',' fs := by
  induction fs with
  | nil => simp [joinSep]
  | cons f rest ih =>
    cases rest with
    | nil => exact h f (by simp)
    | cons g rest2 =>
      show ('\n') ∉ f ++ ',' :: joinSep ',' (g :: rest2)
      intro hm
      rcases List.mem_append.mp hm with h1 | h2
      · exact h f (by simp) h1
      · rcases List.mem_cons.mp h2 with h3 | h4
        · exact absurd h3 (by decide)
        · exact ih (fun x hx => h x (List.mem_cons_of_mem f hx)) h4

theorem not_nl_readsEntryLine {kv : Str × List Str} (h : AppArdaMpi.EntryOk kv) :
    ('\n') ∉ AppArdaMpi.readsEntryLine kv := by
  obtain ⟨h1, _, h3⟩ := h
  intro hm
  unfold AppArdaMpi.readsEntryLine at hm
  rcases List.mem_append.mp hm with ha | hb
  · exact h1 ha
  · rcases List.mem_cons.mp hb with hc | hd
    · exact absurd hc (by decide)
    · exact not_nl_joinSep (fun f hf => (h3 f hf).2.1) hd

theorem cppLines_field {a : Str} (s : Str) (h : ('\n') ∉ a) :
    cppLines (a ++ '\n' :: s) = a :: cppLines s :=
  cppTokens_cons s h

theorem fieldLine_append (a s : Str) : AppArdaMpi.fieldLine a ++ s = a ++ '\n' :: s := by
  simp [AppArdaMpi.fieldLine]

theorem strLt_asymm : ∀ (a b : Str), strLt a b = true → strLt b a = false
  | [], [] => by intro h; simp [strLt] at h
  | [], _ :: _ => by intro _; simp [strLt]
  | _ :: _, [] => by intro h; simp [strLt] at h
  | x :: xs, y :: ys => by
    intro h
    unfold strLt at h ⊢
    by_cases h1 : x.toNat < y.toNat
    · rw [if_neg (by omega), if_pos h1]
    · by_cases h2 : y.toNat < x.toNat
      · rw [if_neg h1, if_pos h2] at h
        exact absurd h (by simp)
      · rw [if_neg h1, if_neg h2] at h
        rw [if_neg h2, if_neg h1]
        exact strLt_asymm xs ys h

theorem mapInsert_append {k : Str} {v : List Str} :
    ∀ {m : List (Str × List Str)}, (∀ kv ∈ m, strLt kv.1 k = true) →
      mapInsert k v m = m ++ [(k, v)] := by
  intro m
  induction m with
  | nil => intro _; rfl
  | cons kv0 rest ih =>
    intro h
    obtain ⟨k0, v0⟩ := kv0
    have h0 : strLt k0 k = true := h (k0, v0) (by simp)
    have hk : strLt k k0 = false := strLt_asymm _ _ h0
    simp only [mapInsert, hk, h0, Bool.false_eq_true, if_false, if_true]
    simp only [List.cons_append, List.cons.injEq, true_and]
    exact ih (fun kv hkv => h kv (List.mem_cons_of_mem _ hkv))

theorem AppArdaMpi.parseFiles_joinSep {fs : List Str}
    (h : ∀ f ∈ fs, f ≠ [] ∧ ('\n') ∉ f ∧ (',') ∉ f) :
    AppArdaMpi.parseFiles (joinSep ',' fs) = fs := by
  unfold AppArdaMpi.parseFiles
  rw [cppTokens_joinSep (fun f hf => (h f hf).2.2) (fun f hf => (h f hf).1)]
  have hall : ∀ f ∈ fs, (!f.isEmpty) = true := by
    intro f hf
    have hne := (h f hf).1
    cases f with
    | nil => exact absurd rfl hne
    | cons a b => rfl
  exact List.filter_eq_self.mpr hall

theorem AppArdaMpi.parse_entry {kv : Str × List Str} (h : AppArdaMpi.EntryOk kv) :
    findChar ':' (AppArdaMpi.readsEntryLine kv) = some kv.1.length ∧
    (AppArdaMpi.readsEntryLine kv).take kv.1.length = kv.1 ∧
    AppArdaMpi.parseFiles ((AppArdaMpi.readsEntryLine kv).drop (kv.1.length + 1)) = kv.2 := by
  obtain ⟨_, h2, h3⟩ := h
  unfold AppArdaMpi.readsEntryLine
  refine ⟨findChar_append_cons _ h2, take_append_len kv.1 _, ?_⟩
  rw [drop_append_len_succ]
  exact AppArdaMpi.parseFiles_joinSep h3

theorem AppArdaMpi.parseReads_sorted :
    ∀ (entries m : List (Str × List Str)),
      (∀ kv ∈ entries, AppArdaMpi.EntryOk kv) →
      List.Pairwise (fun a b => strLt a.1 b.1 = true) entries →
      (∀ a ∈ m, ∀ b ∈ entries, strLt a.1 b.1 = true) →
      AppArdaMpi.parseReads entries.length (entries.map AppArdaMpi.readsEntryLine) m =
        m ++ entries := by
  intro entries
  induction entries with
  | nil => intro m _ _ _; simp [AppArdaMpi.parseReads]
  | cons kv rest ih =>
    intro m hok hpw hlt
    obtain ⟨hfind, htake, hfiles⟩ := AppArdaMpi.parse_entry (hok kv (by simp))
    show AppArdaMpi.parseReads (rest.length + 1)
      (AppArdaMpi.readsEntryLine kv :: rest.map AppArdaMpi.readsEntryLine) m = m ++ kv :: rest
    unfold AppArdaMpi.parseReads
    simp only [getlineL]
    rw [hfind]
    simp only [htake, hfiles]
    have hm : ∀ a ∈ m, strLt a.1 kv.1 = true := fun a ha => hlt a ha kv (by simp)
    rw [mapInsert_append hm]
    have hpw' := List.pairwise_cons.mp hpw
    have step := ih (m ++ [kv])
      (fun x hx => hok x (List.mem_cons_of_mem kv hx))
      hpw'.2
      (by
        intro a ha b hb
        rcases List.mem_append.mp ha with h1 | h2
        · exact hlt a h1 b (List.mem_cons_of_mem kv hb)
        · have : a = kv := by simpa using h2
          rw [this]
          exact hpw'.1 b hb)
    rw [step, List.append_assoc]
    rfl

theorem cppLines_entry_block {entries : List (Str × List Str)}
    (h : ∀ kv ∈ entries, AppArdaMpi.EntryOk kv) :
    cppLines ((entries.map (fun kv => AppArdaMpi.fieldLine (AppArdaMpi.readsEntryLine kv))).flatten) =
      entries.map AppArdaMpi.readsEntryLine := by
  induction entries with
  | nil => exact cppTokens_nil '\n'
  | cons kv rest ih =>
    simp only [List.map_cons, List.flatten_cons, AppArdaMpi.fieldLine, List.append_assoc,
      List.singleton_append, List.cons_append, List.nil_append]
    rw [cppLines_field _ (not_nl_readsEntryLine (h kv (by simp)))]
    have ih' := ih (fun x hx => h x (List.mem_cons_of_mem kv hx))
    simp only [AppArdaMpi.fieldLine] at ih'
    rw [ih']

theorem AppArdaMpi.cppLines_serialize {c : AppArdaMpi.ClusterConfig}
    (h : AppArdaMpi.SerializableConfig c) :
    cppLines (AppArdaMpi.serialize_config c) =
      c.cuclark_dir :: c.database :: c.results_dir ::
      intToStr c.kmer_size :: intToStr c.batch_size ::
      AppArdaMpi.boolStr c.master_processes_reads :: AppArdaMpi.boolStr c.keep_local_results ::
      intToStr c.min_freq_target :: intToStr c.num_threads ::
      intToStr c.num_devices :: intToStr c.gap_iteration ::
      c.sampling_factor ::
      AppArdaMpi.boolStr c.tsk :: AppArdaMpi.boolStr c.extended ::
      AppArdaMpi.boolStr c.gzipped :: AppArdaMpi.boolStr c.verbose ::
      natToStr c.reads.length ::
      c.reads.map AppArdaMpi.readsEntryLine := by
  obtain ⟨h1, h2, h3, h4, h5, _⟩ := h
  unfold AppArdaMpi.serialize_config
  simp only [AppArdaMpi.fieldLine, List.append_assoc, List.singleton_append, List.cons_append,
    List.nil_append]
  rw [cppLines_field _ h1, cppLines_field _ h2, cppLines_field _ h3,
    cppLines_field _ (not_nl_intToStr _), cppLines_field _ (not_nl_intToStr _),
    cppLines_field _ (not_nl_boolStr _), cppLines_field _ (not_nl_boolStr _),
    cppLines_field _ (not_nl_intToStr _), cppLines_field _ (not_nl_intToStr _),
    cppLines_field _ (not_nl_intToStr _), cppLines_field _ (not_nl_intToStr _),
    cppLines_field _ h4,
    cppLines_field _ (not_nl_boolStr _), cppLines_field _ (not_nl_boolStr _),
    cppLines_field _ (not_nl_boolStr _), cppLines_field _ (not_nl_boolStr _),
    cppLines_field _ (not_nl_natToStr _)]
  have := cppLines_entry_block h5
  simp only [AppArdaMpi.fieldLine] at this
  rw [this]

theorem boolStr_decode (b : Bool) : decide (AppArdaMpi.boolStr b = ['1']) = b := by
  cases b <;> rfl

/-- C2 (amended): deserializing the serialized configuration in a process
whose config still has the default-constructed (empty) reads map reproduces
exactly the serialized fields — the three paths, the classification
parameters, the two serialized option flags, and the reads mapping —
provided every reads path avoids the unescaped delimiters (`','`, `':'`,
newline).  `master`, `workers` and the logging settings are not transmitted
and keep the receiver's values `g`. -/
theorem AppArdaMpi.config_roundtrip_amended {c g : AppArdaMpi.ClusterConfig}
    (h : AppArdaMpi.SerializableConfig c) (hg : g.reads = []) :
    AppArdaMpi.deserialize_config (AppArdaMpi.serialize_config c) g =
      some { g with
        cuclark_dir := c.cuclark_dir, database := c.database, results_dir := c.results_dir,
        kmer_size := c.kmer_size, batch_size := c.batch_size,
        master_processes_reads := c.master_processes_reads,
        keep_local_results := c.keep_local_results,
        min_freq_target := c.min_freq_target, num_threads := c.num_threads,
        num_devices := c.num_devices, gap_iteration := c.gap_iteration,
        sampling_factor := c.sampling_factor,
        tsk := c.tsk, extended := c.extended, gzipped := c.gzipped, verbose := c.verbose,
        reads := c.reads } := by
  obtain ⟨h1, h2, h3, h4, h5, h6⟩ := h
  unfold AppArdaMpi.deserialize_config
  rw [AppArdaMpi.cppLines_serialize ⟨h1, h2, h3, h4, h5, h6⟩]
  simp only [getlineL, stoiM_intToStr, stoiM_natToStr, Option.bind_eq_bind, Option.some_bind,
    boolStr_decode, Int.toNat_ofNat, hg]
  rw [AppArdaMpi.parseReads_sorted c.reads [] h5 h6 (by simp)]
  simp

/-- C2 counterexample: for the coordinator config with `master = "m"` and a
reads entry whose path `"a,b"` contains the list delimiter, the deserialized
config differs from the original: `master` comes back empty (it is never
serialized) and the comma-containing path is silently split into the two
entries `"a"` and `"b"` — neither escaped nor rejected. -/
theorem AppArdaMpi.config_roundtrip_cex :
    AppArdaMpi.deserialize_config
        (AppArdaMpi.serialize_config
          { master := "m".toList, reads := [("h".toList, ["a,b".toList])] })
        AppArdaMpi.defaultConfig ≠
      some { master := "m".toList, reads := [("h".toList, ["a,b".toList])] } ∧
    (AppArdaMpi.deserialize_config
        (AppArdaMpi.serialize_config
          { master := "m".toList, reads := [("h".toList, ["a,b".toList])] })
        AppArdaMpi.defaultConfig).map AppArdaMpi.ClusterConfig.master = some [] ∧
    (AppArdaMpi.deserialize_config
        (AppArdaMpi.serialize_config
          { master := "m".toList, reads := [("h".toList, ["a,b".toList])] })
        AppArdaMpi.defaultConfig).map AppArdaMpi.ClusterConfig.reads =
      some [("h".toList, ["a".toList, "b".toList])] :=
  ⟨by decide, by decide, by decide⟩

/-- C2 witness: the amended round-trip theorem applied to a concrete
two-node configuration received by a default-constructed worker config. -/
theorem AppArdaMpi.config_roundtrip_amended_witness :
    AppArdaMpi.deserialize_config
        (AppArdaMpi.serialize_config
          { master := "m".toList,
            reads := [("a".toList, ["r1.fq".toList]),
                      ("b".toList, ["p1.fq".toList, "p2.fq".toList])] })
        AppArdaMpi.defaultConfig =
      some { AppArdaMpi.defaultConfig with
        reads := [("a".toList, ["r1.fq".toList]),
                  ("b".toList, ["p1.fq".toList, "p2.fq".toList])] } :=
  AppArdaMpi.config_roundtrip_amended
    (by unfold AppArdaMpi.SerializableConfig AppArdaMpi.EntryOk; decide) (by decide)

theorem foldr_max_nonneg (l : List ℚ) : 0 ≤ l.foldr max 0 := by
  induction l with
  | nil => exact le_refl 0
  | cons x xs ih => exact le_max_of_le_right ih

theorem AppArdaMpi.maxElapsedSpec_nonneg (rs : List AppArdaMpi.NodeResult) :
    0 ≤ AppArdaMpi.maxElapsedSpec rs :=
  foldr_max_nonneg _

theorem AppArdaMpi.summary_foldl_spec (rs : List AppArdaMpi.NodeResult) :
    ∀ (n0 : Nat) (t0 m0 : ℚ), 0 ≤ m0 →
      List.foldl
        (fun acc r =>
          if r.success then (acc.1 + 1, acc.2.1 + r.elapsed_seconds, max acc.2.2 r.elapsed_seconds)
          else acc)
        ((n0, t0, m0) : Nat × ℚ × ℚ) rs =
      (n0 + (rs.filter (·.success)).length, t0 + AppArdaMpi.totalElapsedSpec rs,
        max m0 (AppArdaMpi.maxElapsedSpec rs)) := by
  induction rs with
  | nil =>
    intro n0 t0 m0 h0
    simp [AppArdaMpi.totalElapsedSpec, AppArdaMpi.maxElapsedSpec, max_eq_left h0]
  | cons r rest ih =>
    intro n0 t0 m0 h0
    by_cases hs : r.success
    · have h0' : 0 ≤ max m0 r.elapsed_seconds := le_trans h0 (le_max_left _ _)
      simp only [List.foldl_cons, hs, if_true]
      rw [ih _ _ _ h0']
      simp only [AppArdaMpi.totalElapsedSpec, AppArdaMpi.maxElapsedSpec, List.filter_cons, hs,
        if_true, List.length_cons, List.map_cons, List.sum_cons, List.foldr_cons,
        Prod.mk.injEq]
      refine ⟨by omega, by ring, ?_⟩
      rw [max_assoc]
    · simp only [List.foldl_cons, hs, Bool.false_eq_true, if_false]
      rw [ih _ _ _ h0]
      simp [AppArdaMpi.totalElapsedSpec, AppArdaMpi.maxElapsedSpec, List.filter_cons, hs]

/-- C3: the speedup printed in the aggregate report's summary block equals
`totalElapsed / maxElapsed` when `maxElapsed > 0` and equals 0 when
`maxElapsed = 0`, where `totalElapsed` is the sum and `maxElapsed` the
maximum of the elapsed times entering the summary (those of successful
nodes; the maximum is 0 when no time enters). -/
theorem AppArdaMpi.speedup_invariant (rs : List AppArdaMpi.NodeResult) :
    AppArdaMpi.reportSpeedup rs =
      if 0 < AppArdaMpi.maxElapsedSpec rs
      then AppArdaMpi.totalElapsedSpec rs / AppArdaMpi.maxElapsedSpec rs
      else 0 := by
  unfold AppArdaMpi.reportSpeedup AppArdaMpi.summaryAccum
  rw [AppArdaMpi.summary_foldl_spec rs 0 0 0 le_rfl]
  simp [max_eq_right (AppArdaMpi.maxElapsedSpec_nonneg rs)]

/-- C10: the generated MPI hostfile puts the master's `"<host> slots=1"`
line first, unconditionally — the `master_processes_reads` flag does not
influence the hostfile at all (so the master appears even when it is not in
the reads map) — followed by one line per worker that has a reads entry, in
`workers` order. -/
theorem AppArdaMpi.hostfile_master_first (c : AppArdaMpi.ClusterConfig) (b : Bool) :
    AppArdaMpi.generate_hostfile { c with master_processes_reads := b } =
      AppArdaMpi.generate_hostfile c ∧
    (AppArdaMpi.generate_hostfile c).head? = some (c.master ++ " slots=1".toList) ∧
    (AppArdaMpi.generate_hostfile c).tail =
      (c.workers.filter (fun w => (lookupReads c.reads w).isSome)).map
        (fun n => n ++ " slots=1".toList) :=
  ⟨rfl, rfl, rfl⟩

theorem foldl_append_filter_map {α β : Type} (p : α → Bool) (f : α → β) (rs : List α) :
    ∀ acc0 : List β,
      rs.foldl (fun acc r => if p r then acc ++ [f r] else acc) acc0 =
        acc0 ++ (rs.filter p).map f := by
  induction rs with
  | nil => intro acc0; simp
  | cons r rest ih =>
    intro acc0
    by_cases hp : p r
    · simp [hp, ih]
    · simp [hp, ih]

/-- C8 (amended): the abundance merge command is invoked iff at least two
abundance files exist among the successful collected NodeResults; but the
report's merged-abundance section is always present — `run_mpi_mode` passes
the fixed merged path to the report generator whether or not a merge was
performed, and the generator prints the section for any non-empty path. -/
theorem AppArdaMpi.merge_gate_amended (c : AppArdaMpi.ClusterConfig)
    (rs : List AppArdaMpi.NodeResult) :
    (AppArdaMpi.merge_abundance_files c rs).isSome =
      decide (2 ≤ ((rs.filter (fun r => r.success && !r.abundance_file.isEmpty)).map
        AppArdaMpi.NodeResult.abundance_file).length) ∧
    AppArdaMpi.reportHasMergedSection (AppArdaMpi.clusterMergedPath c) = true := by
  constructor
  · unfold AppArdaMpi.merge_abundance_files
    rw [foldl_append_filter_map]
    simp only [List.nil_append]
    by_cases h : ((rs.filter (fun r => r.success && !r.abundance_file.isEmpty)).map
        AppArdaMpi.NodeResult.abundance_file).length < 2
    · rw [if_pos h, decide_eq_false (by omega)]
      rfl
    · rw [if_neg h, decide_eq_true (by omega)]
      rfl
  · have h2 : AppArdaMpi.clusterMergedPath c ≠ [] := by
      unfold AppArdaMpi.clusterMergedPath
      intro hx
      have := List.append_eq_nil.mp hx
      exact absurd this.2 (by decide)
    unfold AppArdaMpi.reportHasMergedSection
    cases hm : AppArdaMpi.clusterMergedPath c with
    | nil => exact absurd hm h2
    | cons a l => rfl

/-- C8 counterexample: with a single failed NodeResult and no abundance
files, the merge is skipped (fewer than two files), yet the merged-abundance
pointer section is still present in the report, because `run_mpi_mode`
always passes the fixed merged path — so the section's presence does not
imply a merged file was produced. -/
theorem AppArdaMpi.merge_gate_cex :
    AppArdaMpi.merge_abundance_files AppArdaMpi.defaultConfig
        [{ hostname := "h".toList, success := false, error_message := "boom".toList }] = none ∧
    AppArdaMpi.reportHasMergedSection
      (AppArdaMpi.clusterMergedPath AppArdaMpi.defaultConfig) = true :=
  ⟨by decide, by decide⟩

theorem mem_mapInsert {k : Str} {v : List Str} :
    ∀ {m : List (Str × List Str)} {kv : Str × List Str},
      kv ∈ mapInsert k v m → kv.2 = v ∨ kv ∈ m := by
  intro m
  induction m with
  | nil =>
    intro kv h
    simp [mapInsert] at h
    left
    rw [h]
  | cons kv0 rest ih =>
    intro kv h
    obtain ⟨k0, v0⟩ := kv0
    by_cases h1 : strLt k k0
    · simp only [mapInsert, h1, if_true] at h
      rcases List.mem_cons.mp h with h | h
      · left; rw [h]
      · right; exact h
    · by_cases h2 : strLt k0 k
      · simp only [mapInsert, h1, h2, Bool.false_eq_true, if_false, if_true] at h
        rcases List.mem_cons.mp h with h | h
        · right; simp [h]
        · rcases ih h with h | h
          · left; exact h
          · right; exact List.mem_cons_of_mem _ h
      · simp only [mapInsert, h1, h2, Bool.false_eq_true, if_false] at h
        rcases List.mem_cons.mp h with h | h
        · left; rw [h]
        · right; exact List.mem_cons_of_mem _ h

theorem AppArdaMpi.loadReads_values :
    ∀ (sec : List (Str × Str)) (m : List (Str × List Str)),
      (∀ kv ∈ m, kv.2 ≠ []) →
      ∀ kv ∈ sec.foldl
        (fun m kv =>
          let files := AppArdaMpi.split_csv kv.2
          if files.isEmpty then m else mapInsert kv.1 files m) m,
        kv.2 ≠ [] := by
  intro sec
  induction sec with
  | nil => intro m hm kv hkv; exact hm kv hkv
  | cons e rest ih =>
    intro m hm kv hkv
    simp only [List.foldl_cons] at hkv
    by_cases he : (AppArdaMpi.split_csv e.2).isEmpty
    · exact ih m hm kv (by simpa [he] using hkv)
    · refine ih _ ?_ kv (by simpa [he] using hkv)
      intro kv' hkv'
      rcases mem_mapInsert hkv' with h | h
      · rw [h]
        intro hnil
        rw [hnil] at he
        exact he rfl
      · exact hm kv' h

/-- C7 counterexample: the `[reads]` line `h = a, b, c` loads successfully
as a three-file entry — no validation error of any kind — and a three-file
entry is treated as single-end (`is_paired` is false), not rejected. -/
theorem AppArdaMpi.reads_arity_cex :
    AppArdaMpi.loadReads [("h".toList, "a, b, c".toList)] =
      [("h".toList, ["a".toList, "b".toList, "c".toList])] ∧
    AppArdaMpi.is_paired ["a".toList, "b".toList, "c".toList] = false :=
  ⟨by decide, by decide⟩

/-- C7 (amended): an entry with exactly 2 files is paired-end and any other
file count is single-end; an entry whose value yields 0 files is silently
omitted from the mapping (every stored entry is non-empty); no load-time
validation rejects more than 2 files. -/
theorem AppArdaMpi.reads_arity_amended (sec : List (Str × Str)) :
    ∀ kv ∈ AppArdaMpi.loadReads sec,
      kv.2 ≠ [] ∧ (AppArdaMpi.is_paired kv.2 = true ↔ kv.2.length = 2) := by
  intro kv hkv
  refine ⟨AppArdaMpi.loadReads_values sec [] (by simp) kv hkv, ?_⟩
  unfold AppArdaMpi.is_paired
  simp

/-- C7 witness: the amended statement applied to a concrete section with a
paired-end entry. -/
theorem AppArdaMpi.reads_arity_amended_witness :
    ("h".toList, ["r1.fq".toList, "r2.fq".toList]) ∈
      AppArdaMpi.loadReads [("h".toList, "r1.fq, r2.fq".toList)] ∧
    (["r1.fq".toList, "r2.fq".toList] : List Str) ≠ [] ∧
    (AppArdaMpi.is_paired ["r1.fq".toList, "r2.fq".toList] = true ↔
      (["r1.fq".toList, "r2.fq".toList] : List Str).length = 2) :=
  ⟨by decide,
   AppArdaMpi.reads_arity_amended [("h".toList, "r1.fq, r2.fq".toList)]
     ("h".toList, ["r1.fq".toList, "r2.fq".toList]) (by decide)⟩

/-- C4: for a node with configured reads all of whose read files exist —
if the classify command exits non-zero, the result is returned immediately
with the exit status captured in the error message, `success` stays false
and the abundance command is never invoked; if classify succeeds, `success`
is true regardless of the abundance outcome, and an abundance failure only
leaves `abundance_file` empty. -/
theorem AppArdaMpi.classify_failure_handling (c : AppArdaMpi.ClusterConfig)
    (host : Str) (env : AppArdaMpi.LocalEnv) (fs : List Str)
    (hfs : lookupReads c.reads host = some fs) (hne : fs ≠ [])
    (hex : ∀ f ∈ fs, env.fileExists f = true) :
    (env.classifyExit ≠ 0 →
      (AppArdaMpi.run_classification_local c host env).result.success = false ∧
      (AppArdaMpi.run_classification_local c host env).result.error_message =
        "Classification failed with exit code ".toList ++ natToStr env.classifyExit ∧
      (AppArdaMpi.run_classification_local c host env).abundanceInvoked = false) ∧
    (env.classifyExit = 0 →
      (AppArdaMpi.run_classification_local c host env).result.success = true ∧
      (AppArdaMpi.run_classification_local c host env).abundanceInvoked = true ∧
      (env.abundanceExit ≠ 0 →
        (AppArdaMpi.run_classification_local c host env).result.abundance_file = []) ∧
      (env.abundanceExit = 0 →
        (AppArdaMpi.run_classification_local c host env).result.abundance_file =
          AppArdaMpi.resultPathOf c host fs ++ "_abundance.txt".toList)) := by
  have hne' : fs.isEmpty = false := by
    cases fs with
    | nil => exact absurd rfl hne
    | cons a b => rfl
  have hfind : fs.find? (fun f => !env.fileExists f) = none := by
    apply List.find?_eq_none.mpr
    intro f hf
    simp [hex f hf]
  unfold AppArdaMpi.run_classification_local
  rw [hfs]
  simp only [hne', Bool.false_eq_true, if_false, hfind]
  constructor
  · intro hcl
    rw [if_pos hcl]
    exact ⟨rfl, rfl, rfl⟩
  · intro hcl
    rw [if_neg (by simp [hcl])]
    refine ⟨rfl, rfl, ?_, ?_⟩
    · intro hab
      rw [if_neg hab]
    · intro hab
      rw [if_pos hab]

/-- C4 witness: the theorem applied to a one-node configuration whose
classify command exits with status 2. -/
theorem AppArdaMpi.classify_failure_handling_witness :
    (AppArdaMpi.run_classification_local
        { reads := [("h".toList, ["r.fq".toList])] } "h".toList
        { classifyExit := 2 }).result.success = false ∧
    (AppArdaMpi.run_classification_local
        { reads := [("h".toList, ["r.fq".toList])] } "h".toList
        { classifyExit := 2 }).result.error_message =
      "Classification failed with exit code ".toList ++ natToStr 2 ∧
    (AppArdaMpi.run_classification_local
        { reads := [("h".toList, ["r.fq".toList])] } "h".toList
        { classifyExit := 2 }).abundanceInvoked = false :=
  (AppArdaMpi.classify_failure_handling
    { reads := [("h".toList, ["r.fq".toList])] } "h".toList { classifyExit := 2 }
    ["r.fq".toList] (by decide) (by decide) (by decide)).1 (by decide)

/-- C9 (amended): every NodeResult returned by `run_classification_local`
of `src/app/arda_mpi.cpp` satisfies the invariant — the error message is
empty exactly when `success` is true (every early-failure return sets a
non-empty message, and the success path leaves it empty). -/
theorem AppArdaMpi.result_error_iff_success (c : AppArdaMpi.ClusterConfig)
    (host : Str) (env : AppArdaMpi.LocalEnv) :
    (AppArdaMpi.run_classification_local c host env).result.error_message.isEmpty =
      (AppArdaMpi.run_classification_local c host env).result.success := by
  unfold AppArdaMpi.run_classification_local
  cases hl : lookupReads c.reads host with
  | none => rfl
  | some fs =>
    by_cases hne : fs.isEmpty
    · simp [hne]
    · simp only [hne, Bool.false_eq_true, if_false]
      cases hf : fs.find? (fun f => !env.fileExists f) with
      | some f => simp
      | none =>
        by_cases hcl : env.classifyExit ≠ 0
        · rw [if_pos hcl]
          simp
        · rw [if_neg hcl]
          by_cases hab : env.abundanceExit = 0
          · rw [if_pos hab]
            rfl
          · rw [if_neg hab]
            rfl

/-- C9 counterexample: the sequential SSH-coordination loop inside
`run_master` (the other producer of NodeResults named by the claim) breaks
the invariant: with two read files where the first remote classify fails and
the second succeeds, the recorded NodeResult has `success = true` and a
non-empty `errorMessage` simultaneously, because the loop neither stops on
failure nor clears the message on a later success. -/
theorem ArdaMpi.result_invariant_cex :
    (ArdaMpi.runMasterSeqNode
        { reads := [("h".toList, ["a.fq".toList, "b.fq".toList])] } "h".toList
        { classifySsh := fun i => if i = 0 then (1, "boom".toList) else (0, []) }).success =
      true ∧
    (ArdaMpi.runMasterSeqNode
        { reads := [("h".toList, ["a.fq".toList, "b.fq".toList])] } "h".toList
        { classifySsh := fun i => if i = 0 then (1, "boom".toList) else (0, []) }).error_message =
      "Classification failed: ".toList ++ "boom".toList :=
  ⟨by decide, by decide⟩

/-- C5: `check_node` performs its probes in the fixed order reachability →
database → read files → binary, short-circuiting at the first failure so
that each flag equals the conjunction of its own probe with all earlier
ones (later flags stay false); readiness is exactly
`reachable ∧ databaseOk ∧ readsOk ∧ binaryOk`; the disk probe never enters
the readiness condition, so a node failing only the disk probe is ready. -/
theorem ArdaMpi.check_node_order (c : ArdaMpi.ClusterConfig) (host : Str)
    (env : ArdaMpi.ProbeEnv) :
    (ArdaMpi.check_node c host env).reachable = env.echoOk ∧
    (ArdaMpi.check_node c host env).database_ok = (env.echoOk && env.dbOk) ∧
    (ArdaMpi.check_node c host env).reads_ok =
      (env.echoOk && env.dbOk && ArdaMpi.readsPass c host env) ∧
    (ArdaMpi.check_node c host env).binary_ok =
      (env.echoOk && env.dbOk && ArdaMpi.readsPass c host env && env.binOk) ∧
    (ArdaMpi.check_node c host env).disk_ok =
      (env.echoOk && env.dbOk && ArdaMpi.readsPass c host env && env.binOk) ∧
    ArdaMpi.isReady (ArdaMpi.check_node c host env) =
      (env.echoOk && env.dbOk && ArdaMpi.readsPass c host env && env.binOk) := by
  unfold ArdaMpi.check_node ArdaMpi.isReady ArdaMpi.readsPass
  cases hecho : env.echoOk with
  | false => simp
  | true =>
    simp only [Bool.not_true, Bool.false_eq_true, if_false, Bool.true_and]
    cases hdb : env.dbOk with
    | false => simp
    | true =>
      simp only [Bool.not_true, Bool.false_eq_true, if_false, Bool.true_and]
      cases hl : lookupReads c.reads host with
      | none => simp
      | some fs =>
        by_cases hne : fs.isEmpty
        · simp [hne]
        · simp only [hne, Bool.false_eq_true, if_false]
          cases hf : fs.find? (fun f => !env.readOk f) with
          | some f =>
            have hx : fs.all env.readOk = false := by
              have hmem := List.mem_of_find?_eq_some hf
              have hpf := List.find?_some hf
              rw [List.all_eq_false]
              exact ⟨f, hmem, by simpa using hpf⟩
            simp [hx]
          | none =>
            have hall : fs.all env.readOk = true := by
              rw [List.all_eq_true]
              intro x hx
              have := List.find?_eq_none.mp hf x hx
              simpa using this
            simp only [hall, Bool.and_true, Bool.true_and]
            cases hbin : env.binOk with
            | false => simp
            | true =>
              simp only [Bool.not_true, Bool.false_eq_true, if_false, Bool.and_true]
              by_cases hrc : env.diskRcZero
              · rw [if_pos hrc]
                cases hfree : env.diskFreeGb with
                | none => simp
                | some free => simp [apply_ite]
              · rw [if_neg hrc]
                simp

theorem gate_bool {α : Type} (p : α → Bool) (L : List α) :
    ((L.all p || decide (0 < (L.filter p).length)) && !(L.filter p).isEmpty) = L.any p := by
  by_cases h : L.any p
  · have hne : L.filter p ≠ [] := by
      rcases List.any_eq_true.mp h with ⟨x, hx, hpx⟩
      exact List.ne_nil_of_mem (List.mem_filter.mpr ⟨hx, hpx⟩)
    have hlen : 0 < (L.filter p).length := List.length_pos.mpr hne
    simp [h, hlen, hne]
  · have hfalse : L.any p = false := by
      revert h
      cases L.any p <;> simp
    have hfil : L.filter p = [] := by
      rw [List.filter_eq_nil_iff]
      intro x hx
      have := List.any_eq_false.mp hfalse x hx
      simpa using this
    simp [hfil, hfalse]

/-- Health-check-stage gate of `src/arda_mpi.cpp`: `run_master` reaches its
dispatch phase iff some checked node is ready; the dispatch list is the
ready statuses; a failed status is excluded from it and summarized
`FAILED`. -/
theorem ArdaMpi.preflight_gate (c : ArdaMpi.ClusterConfig) (env : Str → ArdaMpi.ProbeEnv) :
    ArdaMpi.masterProceeds c env = (ArdaMpi.preflightStatuses c env).any ArdaMpi.isReady ∧
    ArdaMpi.ready_nodes c env =
      (ArdaMpi.preflightStatuses c env).filter ArdaMpi.isReady ∧
    ∀ ns ∈ ArdaMpi.preflightStatuses c env, ArdaMpi.isReady ns = false →
      ns ∉ ArdaMpi.ready_nodes c env ∧
      (ns.hostname, "FAILED".toList) ∈ ArdaMpi.preflightSummary c env := by
  refine ⟨?_, rfl, ?_⟩
  · unfold ArdaMpi.masterProceeds ArdaMpi.ready_nodes ArdaMpi.preflightStatuses
      ArdaMpi.run_preflight_checks
    exact gate_bool ArdaMpi.isReady _
  · intro ns hns hfail
    constructor
    · intro hmem
      unfold ArdaMpi.ready_nodes at hmem
      have := (List.mem_filter.mp hmem).2
      rw [hfail] at this
      exact absurd this (by simp)
    · unfold ArdaMpi.preflightSummary
      apply List.mem_map.mpr
      exact ⟨ns, hns, by rw [hfail]; simp⟩

/-- C6 counterexample: at the pre-launch stage of `launch_mpi`
(`src/app/arda_mpi.cpp` lines 829-865), one worker (`w1`) failing the SSH
connectivity probe aborts the entire run (`launch_preflight` is false, the
code returns 1 before `mpirun`), even though the master has work and the
other active worker `w2` passes both pre-launch probes — the failing node
is not excluded-and-continued, contradicting the claim. -/
theorem AppArdaMpi.launch_abort_cex :
    AppArdaMpi.launch_preflight
        { master := "m".toList, workers := ["w1".toList, "w2".toList],
          reads := [("m".toList, ["r.fq".toList]), ("w1".toList, ["a.fq".toList]),
                    ("w2".toList, ["b.fq".toList])] }
        { sshOk := fun w => decide (w ≠ "w1".toList) } = false ∧
    ({ master := "m".toList, workers := ["w1".toList, "w2".toList],
       reads := [("m".toList, ["r.fq".toList]), ("w1".toList, ["a.fq".toList]),
                 ("w2".toList, ["b.fq".toList])] : AppArdaMpi.ClusterConfig
     }.master_processes_reads &&
      (lookupReads [("m".toList, ["r.fq".toList]), ("w1".toList, ["a.fq".toList]),
                    ("w2".toList, ["b.fq".toList])] "m".toList).isSome) = true ∧
    "w2".toList ∈ AppArdaMpi.active_workers
        { master := "m".toList, workers := ["w1".toList, "w2".toList],
          reads := [("m".toList, ["r.fq".toList]), ("w1".toList, ["a.fq".toList]),
                    ("w2".toList, ["b.fq".toList])] } ∧
    ({ sshOk := fun w => decide (w ≠ "w1".toList) : AppArdaMpi.LaunchEnv
     }.sshOk "w2".toList = true ∧
     { sshOk := fun w => decide (w ≠ "w1".toList) : AppArdaMpi.LaunchEnv
     }.binOk "w2".toList = true) :=
  ⟨by decide, by decide, by decide, by decide, by decide⟩

/-- C6 (amended): at the health-check stage (`src/arda_mpi.cpp`) the claim
holds — the run proceeds iff at least one candidate node is ready, the
dispatch list is exactly the ready nodes, and every node failing its health
check is excluded from dispatch and recorded `FAILED` without aborting the
run.  But at the pre-launch stage of the other variant
(`src/app/arda_mpi.cpp` `launch_mpi`), any single active worker failing the
SSH connectivity or binary probe aborts the entire run, regardless of how
many other nodes are ready. -/
theorem ArdaMpi.preflight_gate_amended (c : ArdaMpi.ClusterConfig)
    (env : Str → ArdaMpi.ProbeEnv) (ca : AppArdaMpi.ClusterConfig)
    (enva : AppArdaMpi.LaunchEnv) :
    ArdaMpi.masterProceeds c env = (ArdaMpi.preflightStatuses c env).any ArdaMpi.isReady ∧
    ArdaMpi.ready_nodes c env =
      (ArdaMpi.preflightStatuses c env).filter ArdaMpi.isReady ∧
    (∀ ns ∈ ArdaMpi.preflightStatuses c env, ArdaMpi.isReady ns = false →
      ns ∉ ArdaMpi.ready_nodes c env ∧
      (ns.hostname, "FAILED".toList) ∈ ArdaMpi.preflightSummary c env) ∧
    (∀ w ∈ AppArdaMpi.active_workers ca,
      enva.sshOk w = false ∨ enva.binOk w = false →
      AppArdaMpi.launch_preflight ca enva = false) := by
  refine ⟨(ArdaMpi.preflight_gate c env).1, (ArdaMpi.preflight_gate c env).2.1,
    (ArdaMpi.preflight_gate c env).2.2, ?_⟩
  intro w hw hfail
  unfold AppArdaMpi.launch_preflight
  rcases hfail with h | h
  · have hall : (AppArdaMpi.active_workers ca).all enva.sshOk = false :=
      List.all_eq_false.mpr ⟨w, hw, by simp [h]⟩
    simp [hall]
  · have hall : (AppArdaMpi.active_workers ca).all enva.binOk = false :=
      List.all_eq_false.mpr ⟨w, hw, by simp [h]⟩
    simp [hall]

/-- C6 witness: the amended theorem applied concretely — a two-node cluster
where the master passes every health probe and the worker fails its
liveness probe (run proceeds, worker excluded and summarized `FAILED`), and
a three-node launch where worker `w1` fails the pre-launch SSH probe (whole
run aborted). -/
theorem ArdaMpi.preflight_gate_amended_witness :
    ArdaMpi.masterProceeds
        { master := "m".toList, workers := ["w".toList],
          reads := [("m".toList, ["r.fq".toList])] }
        (fun h => { echoOk := decide (h = "m".toList) }) = true ∧
    { hostname := "w".toList,
      error_message := "Node not reachable: ".toList : ArdaMpi.NodeStatus } ∉
      ArdaMpi.ready_nodes
        { master := "m".toList, workers := ["w".toList],
          reads := [("m".toList, ["r.fq".toList])] }
        (fun h => { echoOk := decide (h = "m".toList) }) ∧
    ("w".toList, "FAILED".toList) ∈
      ArdaMpi.preflightSummary
        { master := "m".toList, workers := ["w".toList],
          reads := [("m".toList, ["r.fq".toList])] }
        (fun h => { echoOk := decide (h = "m".toList) }) ∧
    AppArdaMpi.launch_preflight
        { master := "m".toList, workers := ["w1".toList, "w2".toList],
          reads := [("m".toList, ["r.fq".toList]), ("w1".toList, ["a.fq".toList]),
                    ("w2".toList, ["b.fq".toList])] }
        { sshOk := fun w => decide (w ≠ "w1".toList) } = false := by
  have hg := ArdaMpi.preflight_gate_amended
    { master := "m".toList, workers := ["w".toList],
      reads := [("m".toList, ["r.fq".toList])] }
    (fun h => { echoOk := decide (h = "m".toList) })
    { master := "m".toList, workers := ["w1".toList, "w2".toList],
      reads := [("m".toList, ["r.fq".toList]), ("w1".toList, ["a.fq".toList]),
                ("w2".toList, ["b.fq".toList])] }
    { sshOk := fun w => decide (w ≠ "w1".toList) }
  refine ⟨?_, ?_, ?_, ?_⟩
  · rw [hg.1]
    decide
  · exact (hg.2.2.1
      { hostname := "w".toList, error_message := "Node not reachable: ".toList }
      (by decide) (by decide)).1
  · exact (hg.2.2.1
      { hostname := "w".toList, error_message := "Node not reachable: ".toList }
      (by decide) (by decide)).2
  · exact hg.2.2.2 "w1".toList (by decide) (Or.inl (by decide))

/-- C1 counterexample: with `retryFailedNodes = true` and `maxRetries = 3`
and a classify command failing on every invocation, the classify command is
invoked exactly once — not `maxRetries + 1 = 4` times — and the node's
final NodeResult is failed.  No caller of `run_classification_local`
re-invokes it, and the retry options are loaded but never read. -/
theorem ArdaMpi.retry_bound_cex :
    (ArdaMpi.run_classification_local
        { reads := [("h".toList, ["a.fq".toList])],
          retry_failed_nodes := true, max_retries := 3 }
        "h".toList { classifyRc := fun _ => 1 }).classifyCount = 1 ∧
    ¬ ((ArdaMpi.run_classification_local
        { reads := [("h".toList, ["a.fq".toList])],
          retry_failed_nodes := true, max_retries := 3 }
        "h".toList { classifyRc := fun _ => 1 }).classifyCount =
      (ArdaMpi.ClusterConfig.max_retries
        { reads := [("h".toList, ["a.fq".toList])],
          retry_failed_nodes := true, max_retries := 3 }).toNat + 1) ∧
    (ArdaMpi.run_classification_local
        { reads := [("h".toList, ["a.fq".toList])],
          retry_failed_nodes := true, max_retries := 3 }
        "h".toList { classifyRc := fun _ => 1 }).result.success = false :=
  ⟨by decide, by decide, by decide⟩

/-- C1 (amended): for a node with configured reads whose classify command
fails on every invocation, `run_classification_local` invokes the classify
command exactly once and returns a failed NodeResult — for every value of
the `retry_failed_nodes` and `max_retries` options, which are loaded by
`load_config` but never read by any execution path. -/
theorem ArdaMpi.classify_invoked_once (c : ArdaMpi.ClusterConfig) (host : Str)
    (env : ArdaMpi.RetryEnv) (fs : List Str) (n : Int) (b : Bool)
    (hfs : lookupReads c.reads host = some fs) (hne : fs ≠ [])
    (hfail : ∀ i, env.classifyRc i ≠ 0) :
    (ArdaMpi.run_classification_local
        { c with max_retries := n, retry_failed_nodes := b } host env).classifyCount = 1 ∧
    (ArdaMpi.run_classification_local
        { c with max_retries := n, retry_failed_nodes := b } host env).result.success =
      false := by
  have hne2 : fs.isEmpty = false := by
    cases fs with
    | nil => exact absurd rfl hne
    | cons a b => rfl
  constructor <;>
  · unfold ArdaMpi.run_classification_local
    rw [show ArdaMpi.ClusterConfig.reads
        { c with max_retries := n, retry_failed_nodes := b } = c.reads from rfl, hfs]
    simp only [hne2, Bool.false_eq_true, if_false]
    cases fs with
    | nil => exact absurd rfl hne
    | cons f rest =>
      unfold ArdaMpi.classifyLoop
      rw [if_pos (hfail 0)]

/-- C1 witness: the amended statement at a concrete always-failing node. -/
theorem ArdaMpi.classify_invoked_once_witness :
    (ArdaMpi.run_classification_local
        { reads := [("h".toList, ["a.fq".toList, "b.fq".toList])],
          max_retries := 3, retry_failed_nodes := true }
        "h".toList { classifyRc := fun _ => 7 }).classifyCount = 1 ∧
    (ArdaMpi.run_classification_local
        { reads := [("h".toList, ["a.fq".toList, "b.fq".toList])],
          max_retries := 3, retry_failed_nodes := true }
        "h".toList { classifyRc := fun _ => 7 }).result.success = false :=
  ⟨(ArdaMpi.classify_invoked_once
      { reads := [("h".toList, ["a.fq".toList, "b.fq".toList])] } "h".toList
      { classifyRc := fun _ => 7 } ["a.fq".toList, "b.fq".toList] 3 true
      (by decide) (by decide) (fun i => by simp)).1,
   (ArdaMpi.classify_invoked_once
      { reads := [("h".toList, ["a.fq".toList, "b.fq".toList])] } "h".toList
      { classifyRc := fun _ => 7 } ["a.fq".toList, "b.fq".toList] 3 true
      (by decide) (by decide) (fun i => by simp)).2⟩
